import Mathlib

/-!
# Verification of the geochron-web solar-terminator core

Shallow embedding of `src/frontend/js/app.js`: the subsolar locator
(`getSubsolarPoint`), the isoline builder (`buildNightPolygon`), the
terminator-curve extraction (`buildTerminatorLine`) and the subsolar
readout formatting (`updateSubsolarInfo`).

JavaScript numbers are modelled as real numbers (`ℝ`) for the geometry
and as rationals (`ℚ`) for the exactly-representable formatting pipeline.
The SunCalc ephemeris library is external to the repository; it is
modelled abstractly as a structure of functions, following the external
interface the specification declares for it (solar noon as a function of
the calendar date, solar altitude as a function of instant and probe
coordinates).
-/

namespace Geochron

noncomputable section

/-- `const RAD = Math.PI / 180` (app.js line 3). -/
def RAD : ℝ := Real.pi / 180

/-- `const DEG = 180 / Math.PI` (app.js line 4). -/
def DEG : ℝ := 180 / Real.pi

/-- A UTC instant.  `day` is an abstract key for the calendar date;
`h`, `m`, `s`, `ms` are the UTC time-of-day fields of a JS `Date`.
The `ms` field exists because JS instants carry sub-second precision,
but app.js never reads `getUTCMilliseconds`. -/
structure Instant where
  day : ℤ
  h : ℕ
  m : ℕ
  s : ℕ
  ms : ℕ

/-- The SunCalc collaborator, modelled from the spec's external-interface
section: `solarNoon(date) -> Instant` (solar noon at lon 0 / lat 0 for the
given calendar date) and `solarAltitude(instant, latDeg, lonDeg) -> radians`.
SunCalc's source is not part of this repository. -/
structure Ephemeris where
  solarNoon : ℤ → Instant
  altitude : Instant → ℝ → ℝ → ℝ

/-- Fractional UTC hour of an instant:
`getUTCHours() + getUTCMinutes() / 60 + getUTCSeconds() / 3600`
(app.js lines 32-33).  Milliseconds are not consulted. -/
def hourOf (i : Instant) : ℝ := (i.h : ℝ) + (i.m : ℝ) / 60 + (i.s : ℝ) / 3600

/-- `noonH` of app.js line 32: fractional hour of SunCalc's solar noon for
the instant's calendar date. -/
def noonHour (eph : Ephemeris) (d : Instant) : ℝ := hourOf (eph.solarNoon d.day)

/-- `utcH` of app.js line 33. -/
def utcHour (d : Instant) : ℝ := hourOf d

/-- JS truncation toward zero, as performed implicitly by the `%` operator. -/
def rtrunc (x : ℝ) : ℝ := if 0 ≤ x then (⌊x⌋ : ℤ) else (⌈x⌉ : ℤ)

/-- The JS remainder operator `x % y`: remainder of truncated division,
taking the sign of the dividend. -/
def jsMod (x y : ℝ) : ℝ := x - y * rtrunc (x / y)

/-- `((ssLon + 180) % 360 + 360) % 360 - 180` (app.js line 38). -/
def norm360 (x : ℝ) : ℝ := jsMod (jsMod (x + 180) 360 + 360) 360 - 180

/-- The record returned by `getSubsolarPoint` (app.js line 48). -/
structure SubsolarPoint where
  lon : ℝ
  lat : ℝ
  decl : ℝ

/-- `getSubsolarPoint(date)` (app.js lines 30-49).
Subsolar longitude: `(noonH - utcH) * 15` normalised by `norm360`.
Declination: sign from comparing the altitude probes at latitudes +1 and -1,
magnitude `π/2 - altitude at the equator`. -/
def getSubsolarPoint (eph : Ephemeris) (d : Instant) : SubsolarPoint :=
  let ssLon := norm360 ((noonHour eph d - utcHour d) * 15)
  let sign : ℝ := if eph.altitude d (-1) ssLon ≤ eph.altitude d 1 ssLon then 1 else -1
  let decl := sign * (Real.pi / 2 - eph.altitude d 0 ssLon)
  ⟨ssLon, decl * DEG, decl⟩

/-- `MIN_DECL = 2 * RAD` (app.js line 65). -/
def MIN_DECL : ℝ := 2 * RAD

/-- The equinox guard of app.js lines 66-68:
`decl = |declRaw| < MIN_DECL ? (declRaw >= 0 ? MIN_DECL : -MIN_DECL) : declRaw`. -/
def clampDecl (declRaw : ℝ) : ℝ :=
  if |declRaw| < MIN_DECL then (if 0 ≤ declRaw then MIN_DECL else -MIN_DECL) else declRaw

/-- The integer longitudes swept by `for (let lon = -180; lon <= 180; lon++)`
(app.js line 73). -/
def lonSteps : List ℤ := (List.range 361).map (fun (i : ℕ) => (i : ℤ) - 180)

/-- `H = (lon - ssLon) * RAD` (app.js line 74). -/
def hourAngle (ssLon : ℝ) (lon : ℤ) : ℝ := ((lon : ℝ) - ssLon) * RAD

/-- `R = Math.sqrt(p * p + q * q)` with `p = sin(decl)`,
`q = cos(decl) * cos(H)` (app.js lines 75-77). -/
def Rval (ssLon decl : ℝ) (lon : ℤ) : ℝ :=
  Real.sqrt (Real.sin decl * Real.sin decl +
    (Real.cos decl * Real.cos (hourAngle ssLon lon)) *
    (Real.cos decl * Real.cos (hourAngle ssLon lon)))

/-- `Math.atan2(y, x)`, modelled as the argument of the complex number
`x + y·i` (range `(-π, π]`, `atan2 0 0 = 0`, matching JS on reals). -/
def atan2 (y x : ℝ) : ℝ := Complex.arg ⟨x, y⟩

/-- The latitude emitted at one longitude step (app.js lines 81-83):
`lat = (asin(sinA0 / R) - psi) * DEG`, then
`lat = Math.max(-89.9, Math.min(89.9, lat))`. -/
def boundaryLat (ssLon decl sinA0 : ℝ) (lon : ℤ) : ℝ :=
  max (-89.9) (min 89.9
    ((Real.arcsin (sinA0 / Rval ssLon decl lon) -
      atan2 (Real.cos decl * Real.cos (hourAngle ssLon lon)) (Real.sin decl)) * DEG))

/-- One iteration of the longitude loop (app.js lines 73-85):
`none` when the step is skipped by `if (R < Math.abs(sinA0)) continue`,
otherwise the `[lon, lat]` pair pushed onto `coords`. -/
def boundaryPoint (ssLon decl sinA0 : ℝ) (lon : ℤ) : Option (ℝ × ℝ) :=
  if Rval ssLon decl lon < |sinA0| then none
  else some ((lon : ℝ), boundaryLat ssLon decl sinA0 lon)

/-- The pole latitude chosen on app.js lines 91-92:
`southInNight = Math.sin(decl) > -sinA0; pole = southInNight ? -90 : 90`. -/
def nightPole (decl sinA0 : ℝ) : ℝ := if -sinA0 < Real.sin decl then -90 else 90

/-- The `coords` array right after the longitude loop of
`buildNightPolygon` (app.js lines 71-85). -/
def coordsOf (ssLon declRaw altDeg : ℝ) : List (ℝ × ℝ) :=
  lonSteps.filterMap
    (boundaryPoint ssLon (clampDecl declRaw) (Real.sin (altDeg * RAD)))

/-- `buildNightPolygon` (app.js lines 62-103), parametrised by the subsolar
longitude and raw declination it obtains from `getSubsolarPoint`.
Returns the single polygon ring of the GeoJSON feature, or `none` for the
`null` return of line 87.  The ring is `coords` plus the two pole-closing
vertices and the repeat of the first point (lines 94-96). -/
def buildNightPolygon (ssLon declRaw altDeg : ℝ) : Option (List (ℝ × ℝ)) :=
  let sinA0 := Real.sin (altDeg * RAD)
  let pole := nightPole (clampDecl declRaw) sinA0
  match coordsOf ssLon declRaw altDeg with
  | [] => none
  | c0 :: rest => some ((c0 :: rest) ++ [(180, pole), (-180, pole), c0])

/-- `buildNightPolygon(date, alt)` as called in app.js: the subsolar data
comes from `getSubsolarPoint(date)` (line 63). -/
def buildNightPolygonDate (eph : Ephemeris) (d : Instant) (altDeg : ℝ) :
    Option (List (ℝ × ℝ)) :=
  buildNightPolygon (getSubsolarPoint eph d).lon (getSubsolarPoint eph d).decl altDeg

/-- `buildTerminatorLine` (app.js lines 200-214): the threshold-0 ring with
its last three points dropped (`all.slice(0, all.length - 3)`), or the
empty coordinate list when the polygon builder returned `null`. -/
def buildTerminatorLine (ssLon declRaw : ℝ) : List (ℝ × ℝ) :=
  match buildNightPolygon ssLon declRaw 0 with
  | none => []
  | some all => all.take (all.length - 3)

/-- `buildTerminatorLine(date)` as called in app.js. -/
def buildTerminatorLineDate (eph : Ephemeris) (d : Instant) : List (ℝ × ℝ) :=
  buildTerminatorLine (getSubsolarPoint eph d).lon (getSubsolarPoint eph d).decl

/-- The latitude of the `[-180, pole]` vertex of a ring: the element at
index `length - 2`.  Used to state properties of the pole-closing points. -/
def poleLatOfRing (r : List (ℝ × ℝ)) : Option ℝ := (r[r.length - 2]?).map Prod.snd

/-- The explicit threshold-0 ring: the 361 per-longitude solutions followed
by the two pole-closing vertices and the repeat of the first point.  Used
as a concrete value at which hypotheses of ring theorems can be discharged. -/
def t0ring (ssLon declRaw : ℝ) : List (ℝ × ℝ) :=
  (lonSteps.map (fun (lon : ℤ) =>
    ((lon : ℝ), boundaryLat ssLon (clampDecl declRaw) (Real.sin (0 * RAD)) lon))) ++
  [(180, nightPole (clampDecl declRaw) (Real.sin (0 * RAD))),
   (-180, nightPole (clampDecl declRaw) (Real.sin (0 * RAD))),
   (((-180 : ℤ) : ℝ), boundaryLat ssLon (clampDecl declRaw) (Real.sin (0 * RAD)) (-180))]

/-- A concrete instant: calendar-date key 0, 12:00:00.000 UTC. -/
def inst_cex : Instant := ⟨0, 12, 0, 0, 0⟩

/-- A concrete ephemeris: solar noon at 12:00:00 every day, constant solar
altitude `π/2 - 2·RAD`, so the derived subsolar point has longitude 0 and
declination `2·RAD` (2 degrees, positive). -/
def eph_cex : Ephemeris := ⟨fun _ => inst_cex, fun _ _ _ => Real.pi / 2 - 2 * RAD⟩

end

/-- The value denoted by the JS string `x.toFixed(1)`: sign of `x` times
round-half-away-from-zero of `|x|` to one decimal digit (exact-arithmetic
model of Number.prototype.toFixed with fractionDigits 1). -/
def fixed1 (x : ℚ) : ℚ :=
  (if x < 0 then -1 else 1) * ((⌊|x| * 10 + 1 / 2⌋ : ℤ) : ℚ) / 10

/-- JS default number-to-string conversion, for the nonnegative multiples
of 1/10 produced by `Math.abs` of a parsed `toFixed(1)` string: an integer
renders with no decimal point, otherwise one decimal digit is printed. -/
def jsNumToString (q : ℚ) : String :=
  if ⌊q * 10⌋ % 10 = 0 then toString (⌊q * 10⌋ / 10)
  else toString (⌊q * 10⌋ / 10) ++ "." ++ toString (⌊q * 10⌋ % 10)

/-- The string assigned to `subsolar-info` by `updateSubsolarInfo`
(app.js lines 226-233).  Note the source applies `Math.abs` to the
*string* `ss.lat.toFixed(1)`, which coerces it back to a number
(`fixed1`), takes the absolute value, and re-renders it with the default
number-to-string conversion. -/
def updateSubsolarText (lat lon : ℚ) : String :=
  "subsolar  " ++ jsNumToString |fixed1 lat| ++ "°" ++
    (if 0 ≤ lat then "N" else "S") ++ "  " ++
    jsNumToString |fixed1 lon| ++ "°" ++ (if 0 ≤ lon then "E" else "W")

/-- The formatting the spec prescribes for the readout: magnitude to
exactly one decimal place, hemisphere letter suffix.  Used to compare the
source's behaviour against the claimed format. -/
def specSubsolarText (lat lon : ℚ) : String :=
  "subsolar  " ++ toString (⌊|fixed1 lat| * 10⌋ / 10) ++ "." ++
    toString (⌊|fixed1 lat| * 10⌋ % 10) ++ "°" ++
    (if 0 ≤ lat then "N" else "S") ++ "  " ++
    toString (⌊|fixed1 lon| * 10⌋ / 10) ++ "." ++
    toString (⌊|fixed1 lon| * 10⌋ % 10) ++ "°" ++ (if 0 ≤ lon then "E" else "W")

/-! ## Structural lemmas about the longitude loop and ring assembly -/

lemma Rval_nonneg (ssLon decl : ℝ) (lon : ℤ) : 0 ≤ Rval ssLon decl lon :=
  Real.sqrt_nonneg _

lemma abs_sin_zero_rad : |Real.sin (0 * RAD)| = 0 := by simp

lemma boundaryPoint_t0 (ssLon decl : ℝ) (lon : ℤ) :
    boundaryPoint ssLon decl (Real.sin (0 * RAD)) lon =
      some ((lon : ℝ), boundaryLat ssLon decl (Real.sin (0 * RAD)) lon) := by
  unfold boundaryPoint
  rw [if_neg]
  rw [abs_sin_zero_rad]
  exact not_lt.mpr (Rval_nonneg ssLon decl lon)

lemma filterMap_eq_map_of_some {α β : Type} (f : α → Option β) (g : α → β)
    (l : List α) (h : ∀ a ∈ l, f a = some (g a)) : l.filterMap f = l.map g := by
  induction l with
  | nil => rfl
  | cons a t ih =>
    rw [List.filterMap_cons, List.map_cons, h a (List.mem_cons_self a t),
      ih (fun b hb => h b (List.mem_cons_of_mem a hb))]

lemma lonSteps_length : lonSteps.length = 361 := by
  rw [lonSteps, List.length_map, List.length_range]

lemma coords0_eq (ssLon declRaw : ℝ) :
    coordsOf ssLon declRaw 0 =
      lonSteps.map (fun (lon : ℤ) =>
        ((lon : ℝ), boundaryLat ssLon (clampDecl declRaw) (Real.sin (0 * RAD)) lon)) :=
  filterMap_eq_map_of_some _ _ _ (fun lon _ => boundaryPoint_t0 _ _ lon)

lemma terminator_eq_of_build (ssLon declRaw : ℝ) (r : List (ℝ × ℝ))
    (h : buildNightPolygon ssLon declRaw 0 = some r) :
    buildTerminatorLine ssLon declRaw = r.take (r.length - 3) := by
  unfold buildTerminatorLine
  rw [h]

lemma take_drop3 {α : Type} (l : List α) (a b c : α) :
    (l ++ [a, b, c]).take ((l ++ [a, b, c]).length - 3) = l := by
  have h : (l ++ [a, b, c]).length - 3 = l.length := by simp
  rw [h, List.take_left]

lemma build_eq_of_coords (ssLon declRaw altDeg : ℝ) (c0 : ℝ × ℝ) (rest : List (ℝ × ℝ))
    (h : coordsOf ssLon declRaw altDeg = c0 :: rest) :
    buildNightPolygon ssLon declRaw altDeg =
      some ((c0 :: rest) ++
        [(180, nightPole (clampDecl declRaw) (Real.sin (altDeg * RAD))),
         (-180, nightPole (clampDecl declRaw) (Real.sin (altDeg * RAD))), c0]) := by
  unfold buildNightPolygon
  rw [h]

lemma build_none_of_coords_nil (ssLon declRaw altDeg : ℝ)
    (h : coordsOf ssLon declRaw altDeg = []) :
    buildNightPolygon ssLon declRaw altDeg = none := by
  unfold buildNightPolygon
  rw [h]

lemma t0_structure (ssLon declRaw : ℝ) :
    ∃ (pts : List (ℝ × ℝ)) (c0 : ℝ × ℝ) (rest : List (ℝ × ℝ)),
      pts.length = 361 ∧
      pts.map Prod.fst = lonSteps.map (fun (z : ℤ) => (z : ℝ)) ∧
      pts = c0 :: rest ∧
      buildNightPolygon ssLon declRaw 0 =
        some (pts ++ [(180, nightPole (clampDecl declRaw) (Real.sin (0 * RAD))),
          (-180, nightPole (clampDecl declRaw) (Real.sin (0 * RAD))), c0]) ∧
      buildTerminatorLine ssLon declRaw = pts := by
  have hco := coords0_eq ssLon declRaw
  have hlen : (coordsOf ssLon declRaw 0).length = 361 := by
    rw [hco, List.length_map, lonSteps_length]
  have hne : coordsOf ssLon declRaw 0 ≠ [] := by
    intro h
    rw [h] at hlen
    exact absurd hlen (by norm_num)
  obtain ⟨c0, rest, hcr⟩ := List.exists_cons_of_ne_nil hne
  have hbuild := build_eq_of_coords ssLon declRaw 0 c0 rest hcr
  refine ⟨coordsOf ssLon declRaw 0, c0, rest, hlen, ?_, hcr, ?_, ?_⟩
  · rw [hco, List.map_map]
    rfl
  · rw [hcr]
    exact hbuild
  · rw [terminator_eq_of_build ssLon declRaw _ hbuild, take_drop3]
    exact hcr.symm

/-- C1: for every date, at threshold 0 the per-longitude solve collects
exactly 361 points, one per integer longitude from -180 to 180 in order;
the ring returned by `buildNightPolygon` is those 361 points plus exactly
three more (the two pole-closing vertices and the ring-closing repeat of
the first point); and `buildTerminatorLine` is exactly that ring with the
final three points dropped, i.e. the 361 per-longitude solutions unclosed. -/
theorem c1_threshold0_counts (eph : Ephemeris) (d : Instant) :
    ∃ (pts : List (ℝ × ℝ)) (c0 : ℝ × ℝ) (rest : List (ℝ × ℝ)) (pole : ℝ),
      pts.length = 361 ∧
      pts.map Prod.fst = lonSteps.map (fun (z : ℤ) => (z : ℝ)) ∧
      pts = c0 :: rest ∧
      buildNightPolygonDate eph d 0 = some (pts ++ [(180, pole), (-180, pole), c0]) ∧
      buildTerminatorLineDate eph d = pts := by
  obtain ⟨pts, c0, rest, h1, h2, h3, h4, h5⟩ :=
    t0_structure (getSubsolarPoint eph d).lon (getSubsolarPoint eph d).decl
  exact ⟨pts, c0, rest, _, h1, h2, h3, h4, h5⟩

/-- C9: for every date, `buildNightPolygon` at threshold 0 never returns
null (no longitude step is ever skipped there, since `R ≥ 0 = |sin 0|`),
so the empty-LineString fallback of `buildTerminatorLine` is unreachable
and the terminator line always has exactly 361 coordinates. -/
theorem c9_terminator_fallback_unreachable (eph : Ephemeris) (d : Instant) :
    (buildNightPolygonDate eph d 0).isSome = true ∧
    (buildTerminatorLineDate eph d).length = 361 := by
  obtain ⟨pts, c0, rest, h1, _, _, h4, h5⟩ :=
    t0_structure (getSubsolarPoint eph d).lon (getSubsolarPoint eph d).decl
  constructor
  · show (buildNightPolygon _ _ 0).isSome = true
    rw [h4]
    rfl
  · show (buildTerminatorLine _ _).length = 361
    rw [h5, h1]

/-! ## The skip condition, the asin argument and the equinox guard -/

lemma MIN_DECL_pos : 0 < MIN_DECL := by
  unfold MIN_DECL RAD
  positivity

lemma MIN_DECL_lt_pi_div_two : MIN_DECL < Real.pi / 2 := by
  unfold MIN_DECL RAD
  linarith [Real.pi_pos]

lemma clampDecl_zero : clampDecl 0 = MIN_DECL := by
  unfold clampDecl
  rw [abs_zero, if_pos MIN_DECL_pos, if_pos le_rfl]

lemma ninety_rad : (90 : ℝ) * RAD = Real.pi / 2 := by
  rw [RAD]
  ring

lemma abs_div_Rval_le_one (ssLon decl sinA0 : ℝ) (lon : ℤ)
    (h : ¬ Rval ssLon decl lon < |sinA0|) :
    |sinA0 / Rval ssLon decl lon| ≤ 1 := by
  have hR : 0 ≤ Rval ssLon decl lon := Rval_nonneg ssLon decl lon
  have hle : |sinA0| ≤ Rval ssLon decl lon := not_lt.mp h
  rcases eq_or_lt_of_le hR with h0 | h0
  · have hs : sinA0 = 0 := by
      have hz : |sinA0| ≤ 0 := le_of_le_of_eq hle h0.symm
      exact abs_nonpos_iff.mp hz
    rw [hs]
    simp
  · rw [abs_div, abs_of_pos h0]
    exact div_le_one_of_le₀ hle hR

lemma Rval_lt_one (ssLon decl : ℝ) (lon : ℤ) (hcos : Real.cos decl ≠ 0)
    (hsin : Real.sin (hourAngle ssLon lon) ≠ 0) :
    Rval ssLon decl lon < 1 := by
  have hs := Real.sin_sq_add_cos_sq (hourAngle ssLon lon)
  have hd := Real.sin_sq_add_cos_sq decl
  have h1 : Real.cos (hourAngle ssLon lon) * Real.cos (hourAngle ssLon lon) < 1 := by
    nlinarith [mul_self_pos.mpr hsin]
  have h2 : Real.sin decl * Real.sin decl +
      (Real.cos decl * Real.cos (hourAngle ssLon lon)) *
      (Real.cos decl * Real.cos (hourAngle ssLon lon)) < 1 := by
    nlinarith [mul_self_pos.mpr hcos]
  have h3 := Real.sqrt_lt_sqrt (add_nonneg (mul_self_nonneg _) (mul_self_nonneg _)) h2
  rw [Real.sqrt_one] at h3
  exact h3

lemma sin_hourAngle_half_ne (lon : ℤ) : Real.sin (hourAngle (1 / 2) lon) ≠ 0 := by
  unfold hourAngle RAD
  intro h
  rw [Real.sin_eq_zero_iff] at h
  obtain ⟨n, hn⟩ := h
  have hpi := Real.pi_ne_zero
  have h180 : ((n : ℝ) * 180) * Real.pi = ((lon : ℝ) - 1 / 2) * Real.pi := by
    field_simp at hn
    linarith [hn]
  have hcancel : (n : ℝ) * 180 = (lon : ℝ) - 1 / 2 := mul_right_cancel₀ hpi h180
  have hint : ((2 * lon - 360 * n : ℤ) : ℝ) = 1 := by
    push_cast
    linarith
  have hint2 : (2 * lon - 360 * n : ℤ) = 1 := by exact_mod_cast hint
  omega

lemma cos_MIN_DECL_pos : 0 < Real.cos MIN_DECL :=
  Real.cos_pos_of_mem_Ioo
    ⟨by linarith [MIN_DECL_pos, Real.pi_pos], MIN_DECL_lt_pi_div_two⟩

lemma skip_all_at_90 : ∀ lon ∈ lonSteps,
    Rval (1 / 2) (clampDecl 0) lon < |Real.sin ((90 : ℝ) * RAD)| := by
  intro lon _
  rw [clampDecl_zero, ninety_rad, Real.sin_pi_div_two, abs_one]
  exact Rval_lt_one _ _ _ (ne_of_gt cos_MIN_DECL_pos) (sin_hourAngle_half_ne lon)

lemma Rval_0_0_90 : Rval 0 0 90 = 0 := by
  unfold Rval hourAngle
  push_cast
  rw [sub_zero, ninety_rad, Real.cos_pi_div_two, Real.sin_zero]
  simp

/-- C2: a longitude step whose `R` is strictly below `|sin(altThreshold)|`
contributes no boundary point (it is skipped), and when every longitude of
the -180..180 sweep is skipped, `buildNightPolygon` returns null rather
than raising an error. -/
theorem c2_skip_and_null :
    (∀ (ssLon decl sinA0 : ℝ) (lon : ℤ),
        Rval ssLon decl lon < |sinA0| → boundaryPoint ssLon decl sinA0 lon = none) ∧
    (∀ (ssLon declRaw altDeg : ℝ),
        (∀ lon ∈ lonSteps,
            Rval ssLon (clampDecl declRaw) lon < |Real.sin (altDeg * RAD)|) →
        buildNightPolygon ssLon declRaw altDeg = none) := by
  constructor
  · intro ssLon decl sinA0 lon h
    unfold boundaryPoint
    rw [if_pos h]
  · intro ssLon declRaw altDeg h
    apply build_none_of_coords_nil
    unfold coordsOf
    rw [List.filterMap_eq_nil_iff]
    intro lon hlon
    unfold boundaryPoint
    rw [if_pos (h lon hlon)]

/-- Witness for C2: at longitude 90 with declination 0 the radius term
vanishes, so the step is skipped for threshold 90; and for subsolar
longitude 1/2, raw declination 0 and threshold 90 every longitude step is
skipped, so the builder returns null. -/
theorem c2_witness :
    (Rval 0 0 90 < |(1 : ℝ)| ∧ boundaryPoint 0 0 1 90 = none) ∧
    ((∀ lon ∈ lonSteps,
        Rval (1 / 2) (clampDecl 0) lon < |Real.sin ((90 : ℝ) * RAD)|) ∧
      buildNightPolygon (1 / 2) 0 90 = none) := by
  have h1 : Rval 0 0 90 < |(1 : ℝ)| := by
    rw [Rval_0_0_90]
    norm_num
  exact ⟨⟨h1, c2_skip_and_null.1 0 0 1 90 h1⟩,
    ⟨skip_all_at_90, c2_skip_and_null.2 (1 / 2) 0 90 skip_all_at_90⟩⟩

/-- C4: for every longitude step that passes the no-solution skip check,
the argument `sinA0 / R` handed to `Math.asin` lies within `[-1, 1]`. -/
theorem c4_asin_arg_in_domain (ssLon declRaw altDeg : ℝ) (lon : ℤ)
    (hpass : ¬ Rval ssLon (clampDecl declRaw) lon < |Real.sin (altDeg * RAD)|) :
    -1 ≤ Real.sin (altDeg * RAD) / Rval ssLon (clampDecl declRaw) lon ∧
      Real.sin (altDeg * RAD) / Rval ssLon (clampDecl declRaw) lon ≤ 1 :=
  abs_le.mp (abs_div_Rval_le_one _ _ _ _ hpass)

/-- Witness for C4: at threshold 0 every step passes the skip check, and
the asin argument at longitude 0 is inside `[-1, 1]`. -/
theorem c4_witness :
    (¬ Rval 0 (clampDecl (2 * RAD)) 0 < |Real.sin ((0 : ℝ) * RAD)|) ∧
    (-1 ≤ Real.sin ((0 : ℝ) * RAD) / Rval 0 (clampDecl (2 * RAD)) 0 ∧
      Real.sin ((0 : ℝ) * RAD) / Rval 0 (clampDecl (2 * RAD)) 0 ≤ 1) := by
  have hpass : ¬ Rval 0 (clampDecl (2 * RAD)) 0 < |Real.sin ((0 : ℝ) * RAD)| := by
    rw [abs_sin_zero_rad]
    exact not_lt.mpr (Rval_nonneg _ _ _)
  exact ⟨hpass, c4_asin_arg_in_domain 0 (2 * RAD) 0 0 hpass⟩

/-- C6: for raw declinations of magnitude below 2 degrees the effective
declination is the signed clamp to 2 degrees (zero mapped to +2 degrees),
so it has magnitude at least `MIN_DECL`; under the clamp `sin(decl)` is
nonzero, the radius `R` is strictly positive at every longitude and
threshold (no division by zero, no degenerate `atan2(0, 0)`), and the
`asin` argument of every emitted point lies in `[-1, 1]` — the real-number
rendering of "the boundary computation never produces a NaN or undefined
latitude". -/
theorem c6_equinox_guard (declRaw : ℝ) (h : |declRaw| < MIN_DECL) :
    clampDecl declRaw = (if 0 ≤ declRaw then MIN_DECL else -MIN_DECL) ∧
    MIN_DECL ≤ |clampDecl declRaw| ∧
    Real.sin (clampDecl declRaw) ≠ 0 ∧
    ∀ (ssLon altDeg : ℝ) (lon : ℤ),
      0 < Rval ssLon (clampDecl declRaw) lon ∧
      (¬ Rval ssLon (clampDecl declRaw) lon < |Real.sin (altDeg * RAD)| →
        -1 ≤ Real.sin (altDeg * RAD) / Rval ssLon (clampDecl declRaw) lon ∧
          Real.sin (altDeg * RAD) / Rval ssLon (clampDecl declRaw) lon ≤ 1) := by
  have hcl : clampDecl declRaw = if 0 ≤ declRaw then MIN_DECL else -MIN_DECL := by
    unfold clampDecl
    rw [if_pos h]
  have hsinM : 0 < Real.sin MIN_DECL :=
    Real.sin_pos_of_pos_of_lt_pi MIN_DECL_pos
      (by linarith [MIN_DECL_lt_pi_div_two, Real.pi_pos])
  have hsin : Real.sin (clampDecl declRaw) ≠ 0 := by
    rw [hcl]
    split
    · exact ne_of_gt hsinM
    · rw [Real.sin_neg]
      exact neg_ne_zero.mpr (ne_of_gt hsinM)
  refine ⟨hcl, ?_, hsin, ?_⟩
  · rw [hcl]
    split
    · rw [abs_of_pos MIN_DECL_pos]
    · rw [abs_neg, abs_of_pos MIN_DECL_pos]
  · intro ssLon altDeg lon
    constructor
    · unfold Rval
      exact Real.sqrt_pos.mpr
        (add_pos_of_pos_of_nonneg (mul_self_pos.mpr hsin) (mul_self_nonneg _))
    · intro hpass
      exact abs_le.mp (abs_div_Rval_le_one _ _ _ _ hpass)

/-- Witness for C6 at raw declination 0: the guard hypothesis holds and
all the guarantees follow at that input. -/
theorem c6_witness :
    |(0 : ℝ)| < MIN_DECL ∧
    (clampDecl 0 = (if (0 : ℝ) ≤ 0 then MIN_DECL else -MIN_DECL) ∧
      MIN_DECL ≤ |clampDecl 0| ∧
      Real.sin (clampDecl 0) ≠ 0 ∧
      ∀ (ssLon altDeg : ℝ) (lon : ℤ),
        0 < Rval ssLon (clampDecl 0) lon ∧
        (¬ Rval ssLon (clampDecl 0) lon < |Real.sin (altDeg * RAD)| →
          -1 ≤ Real.sin (altDeg * RAD) / Rval ssLon (clampDecl 0) lon ∧
            Real.sin (altDeg * RAD) / Rval ssLon (clampDecl 0) lon ≤ 1)) :=
  ⟨by rw [abs_zero]; exact MIN_DECL_pos,
    c6_equinox_guard 0 (by rw [abs_zero]; exact MIN_DECL_pos)⟩

/-! ## Subsolar longitude: normalisation range and millisecond independence -/

lemma jsMod_bounds_nonneg (x y : ℝ) (hx : 0 ≤ x) (hy : 0 < y) :
    0 ≤ jsMod x y ∧ jsMod x y < y := by
  unfold jsMod rtrunc
  rw [if_pos (div_nonneg hx hy.le)]
  have hxy : y * (x / y) = x := by
    rw [mul_comm]
    exact div_mul_cancel₀ x (ne_of_gt hy)
  have hfr : x - y * (⌊x / y⌋ : ℤ) = y * Int.fract (x / y) := by
    rw [Int.fract, mul_sub, hxy]
  rw [hfr]
  constructor
  · exact mul_nonneg hy.le (Int.fract_nonneg _)
  · have := mul_lt_mul_of_pos_left (Int.fract_lt_one (x / y)) hy
    rwa [mul_one] at this

lemma jsMod_bounds_neg (x y : ℝ) (hx : x < 0) (hy : 0 < y) :
    -y < jsMod x y ∧ jsMod x y ≤ 0 := by
  unfold jsMod rtrunc
  rw [if_neg (not_le.mpr (div_neg_of_neg_of_pos hx hy))]
  have hxy : y * (x / y) = x := by
    rw [mul_comm]
    exact div_mul_cancel₀ x (ne_of_gt hy)
  constructor
  · have hc := Int.ceil_lt_add_one (x / y)
    have h1 : y * (⌈x / y⌉ : ℤ) < y * (x / y + 1) := mul_lt_mul_of_pos_left hc hy
    rw [mul_add, mul_one, hxy] at h1
    linarith
  · have hc := Int.le_ceil (x / y)
    have h1 : y * (x / y) ≤ y * (⌈x / y⌉ : ℤ) := mul_le_mul_of_nonneg_left hc hy.le
    rw [hxy] at h1
    linarith

lemma norm360_bounds (x : ℝ) : -180 ≤ norm360 x ∧ norm360 x < 180 := by
  unfold norm360
  have h360 : (0 : ℝ) < 360 := by norm_num
  have hb : 0 ≤ jsMod (x + 180) 360 + 360 := by
    rcases le_or_lt 0 (x + 180) with h | h
    · have := (jsMod_bounds_nonneg (x + 180) 360 h h360).1
      linarith
    · have := (jsMod_bounds_neg (x + 180) 360 h h360).1
      linarith
  have h2 := jsMod_bounds_nonneg (jsMod (x + 180) 360 + 360) 360 hb h360
  exact ⟨by linarith [h2.1], by linarith [h2.2]⟩

/-- C5: the subsolar longitude returned by `getSubsolarPoint` is exactly
`(noonH - utcH) * 15` pushed through the JS modulo normalisation, and it
always lies in the half-open interval `[-180, 180)`, negative
pre-normalisation values included. -/
theorem c5_subsolar_lon_normalised (eph : Ephemeris) (d : Instant) :
    (getSubsolarPoint eph d).lon = norm360 ((noonHour eph d - utcHour d) * 15) ∧
    -180 ≤ (getSubsolarPoint eph d).lon ∧ (getSubsolarPoint eph d).lon < 180 :=
  ⟨rfl, (norm360_bounds _).1, (norm360_bounds _).2⟩

/-- C10: the subsolar longitude depends on the instant only through its
calendar date and its whole UTC hours, minutes and seconds; instants that
agree on those but differ in milliseconds produce the same longitude. -/
theorem c10_lon_ignores_milliseconds (eph : Ephemeris) (d1 d2 : Instant)
    (hday : d1.day = d2.day) (hh : d1.h = d2.h) (hm : d1.m = d2.m)
    (hs : d1.s = d2.s) :
    (getSubsolarPoint eph d1).lon = (getSubsolarPoint eph d2).lon := by
  show norm360 ((noonHour eph d1 - utcHour d1) * 15) =
    norm360 ((noonHour eph d2 - utcHour d2) * 15)
  unfold noonHour utcHour hourOf
  rw [hday, hh, hm, hs]

/-- Witness for C10: two instants on the same date at 12:00:00 UTC that
differ only in their millisecond field give the same subsolar longitude. -/
theorem c10_witness :
    (getSubsolarPoint eph_cex ⟨0, 12, 0, 0, 100⟩).lon =
      (getSubsolarPoint eph_cex ⟨0, 12, 0, 0, 900⟩).lon :=
  c10_lon_ignores_milliseconds eph_cex ⟨0, 12, 0, 0, 100⟩ ⟨0, 12, 0, 0, 900⟩
    rfl rfl rfl rfl

/-! ## Pole selection -/

lemma sin_zero_rad : Real.sin ((0 : ℝ) * RAD) = 0 := by
  rw [zero_mul, Real.sin_zero]

lemma poleLat_append3 (l : List (ℝ × ℝ)) (a b c : ℝ × ℝ) :
    poleLatOfRing (l ++ [a, b, c]) = some b.2 := by
  unfold poleLatOfRing
  have h1 : (l ++ [a, b, c]).length - 2 = l.length + 1 := by
    rw [List.length_append]
    simp
  rw [h1, List.getElem?_append_right (by omega : l.length ≤ l.length + 1)]
  have h2 : l.length + 1 - l.length = 1 := by omega
  rw [h2]
  rfl

lemma poleLat_of_build (ssLon declRaw altDeg : ℝ) (r : List (ℝ × ℝ))
    (h : buildNightPolygon ssLon declRaw altDeg = some r) :
    poleLatOfRing r = some (nightPole (clampDecl declRaw) (Real.sin (altDeg * RAD))) := by
  cases hc : coordsOf ssLon declRaw altDeg with
  | nil =>
    rw [build_none_of_coords_nil _ _ _ hc] at h
    exact absurd h (by simp)
  | cons c0 rest =>
    rw [build_eq_of_coords _ _ _ _ _ hc] at h
    injection h with hr
    rw [← hr, poleLat_append3]

lemma bind_poleLat (ssLon declRaw altDeg : ℝ)
    (h : (buildNightPolygon ssLon declRaw altDeg).isSome = true) :
    (buildNightPolygon ssLon declRaw altDeg).bind poleLatOfRing =
      some (nightPole (clampDecl declRaw) (Real.sin (altDeg * RAD))) := by
  obtain ⟨r, hr⟩ := Option.isSome_iff_exists.mp h
  rw [hr]
  show poleLatOfRing r = _
  exact poleLat_of_build ssLon declRaw altDeg r hr

lemma clampDecl_2RAD : clampDecl (2 * RAD) = 2 * RAD := by
  unfold clampDecl
  have h2 : (0 : ℝ) < 2 * RAD := MIN_DECL_pos
  have hlt : ¬ (2 * RAD < MIN_DECL) := by
    unfold MIN_DECL
    exact lt_irrefl _
  rw [abs_of_pos h2, if_neg hlt]

lemma hourAngle_zero : hourAngle 0 0 = 0 := by
  unfold hourAngle
  push_cast
  ring

lemma Rval_cex : Rval 0 (2 * RAD) 0 = 1 := by
  unfold Rval
  rw [hourAngle_zero, Real.cos_zero, mul_one]
  have h : Real.sin (2 * RAD) * Real.sin (2 * RAD) +
      Real.cos (2 * RAD) * Real.cos (2 * RAD) = 1 := by
    have hs := Real.sin_sq_add_cos_sq (2 * RAD)
    nlinarith [hs]
  rw [h]
  exact Real.sqrt_one

lemma abs_sin_neg6 : |Real.sin ((-6 : ℝ) * RAD)| < 1 := by
  rw [show ((-6 : ℝ)) * RAD = -(6 * RAD) by ring, Real.sin_neg, abs_neg]
  have hcos : 0 < Real.cos (6 * RAD) := by
    apply Real.cos_pos_of_mem_Ioo
    constructor
    · unfold RAD
      linarith [Real.pi_pos]
    · unfold RAD
      linarith [Real.pi_pos]
  have hs := Real.sin_sq_add_cos_sq (6 * RAD)
  have h1 : Real.sin (6 * RAD) ^ 2 < 1 := by nlinarith [hcos]
  exact (sq_lt_one_iff_abs_lt_one _).mp h1

lemma cex_coords_ne : coordsOf 0 (2 * RAD) (-6) ≠ [] := by
  intro h
  have h0 : (0 : ℤ) ∈ lonSteps := by
    unfold lonSteps
    rw [List.mem_map]
    exact ⟨180, by rw [List.mem_range]; norm_num, by norm_num⟩
  unfold coordsOf at h
  have hnone := List.filterMap_eq_nil_iff.mp h _ h0
  unfold boundaryPoint at hnone
  rw [clampDecl_2RAD, Rval_cex,
    if_neg (not_lt.mpr (le_of_lt abs_sin_neg6))] at hnone
  exact absurd hnone (by simp)

lemma cex_core_isSome : (buildNightPolygon 0 (2 * RAD) (-6)).isSome = true := by
  obtain ⟨c0, rest, hcr⟩ := List.exists_cons_of_ne_nil cex_coords_ne
  rw [build_eq_of_coords _ _ _ _ _ hcr]
  rfl

lemma hourOf_inst_cex : hourOf inst_cex = 12 := by
  unfold hourOf inst_cex
  push_cast
  norm_num

lemma jsMod_180 : jsMod 180 360 = 180 := by
  unfold jsMod rtrunc
  rw [if_pos (by norm_num : (0 : ℝ) ≤ 180 / 360)]
  have h : ⌊(180 : ℝ) / 360⌋ = 0 := by
    rw [Int.floor_eq_iff]
    constructor <;> norm_num
  rw [h]
  norm_num

lemma jsMod_540 : jsMod 540 360 = 180 := by
  unfold jsMod rtrunc
  rw [if_pos (by norm_num : (0 : ℝ) ≤ 540 / 360)]
  have h : ⌊(540 : ℝ) / 360⌋ = 1 := by
    rw [Int.floor_eq_iff]
    constructor <;> norm_num
  rw [h]
  norm_num

lemma norm360_zero : norm360 0 = 0 := by
  unfold norm360
  rw [show (0 : ℝ) + 180 = 180 by norm_num, jsMod_180,
    show (180 : ℝ) + 360 = 540 by norm_num, jsMod_540]
  norm_num

lemma ssp_cex_lon : (getSubsolarPoint eph_cex inst_cex).lon = 0 := by
  show norm360 ((noonHour eph_cex inst_cex - utcHour inst_cex) * 15) = 0
  unfold noonHour utcHour eph_cex
  rw [hourOf_inst_cex, sub_self, zero_mul, norm360_zero]

lemma ssp_cex_decl : (getSubsolarPoint eph_cex inst_cex).decl = 2 * RAD := by
  simp only [getSubsolarPoint, eph_cex]
  rw [if_pos le_rfl]
  ring

lemma cex_build_isSome : (buildNightPolygonDate eph_cex inst_cex (-6)).isSome = true := by
  show (buildNightPolygon _ _ _).isSome = true
  rw [ssp_cex_lon, ssp_cex_decl]
  exact cex_core_isSome

lemma two_six_rad_mono : Real.sin (2 * RAD) < Real.sin (6 * RAD) := by
  apply Real.strictMonoOn_sin
  · constructor
    · unfold RAD
      linarith [Real.pi_pos]
    · unfold RAD
      linarith [Real.pi_pos]
  · constructor
    · unfold RAD
      linarith [Real.pi_pos]
    · unfold RAD
      linarith [Real.pi_pos]
  · unfold RAD
    linarith [Real.pi_pos]

lemma nightPole_cex : nightPole (clampDecl (2 * RAD)) (Real.sin ((-6 : ℝ) * RAD)) = 90 := by
  rw [clampDecl_2RAD]
  unfold nightPole
  have h1 : -Real.sin ((-6 : ℝ) * RAD) = Real.sin (6 * RAD) := by
    rw [show ((-6 : ℝ)) * RAD = -(6 * RAD) by ring, Real.sin_neg, neg_neg]
  rw [h1, if_neg (not_lt.mpr two_six_rad_mono.le)]

/-- C3 counterexample: with the concrete ephemeris `eph_cex` the clamped
declination is `2·RAD > 0` (positive), yet at altitude threshold -6 the
builder returns a ring whose pole-closing vertices sit at latitude +90,
not the -90 the claim demands for every threshold. -/
theorem c3_counterexample :
    0 < clampDecl ((getSubsolarPoint eph_cex inst_cex).decl) ∧
    (buildNightPolygonDate eph_cex inst_cex (-6)).bind poleLatOfRing = some 90 := by
  constructor
  · rw [ssp_cex_decl, clampDecl_2RAD]
    exact MIN_DECL_pos
  · show (buildNightPolygon _ _ _).bind poleLatOfRing = some 90
    rw [ssp_cex_lon, ssp_cex_decl, bind_poleLat 0 (2 * RAD) (-6) cex_core_isSome,
      nightPole_cex]

/-- C3 (amended): whenever `buildNightPolygon` returns a ring, the latitude
of its pole-closing vertices is `nightPole decl sinA0`, i.e. -90 exactly
when `sin(decl) > -sin(altThreshold·RAD)` and +90 otherwise.  The claimed
dichotomy — positive clamped declination gives -90, negative gives +90 —
holds in the threshold-0 case (for declinations of physical magnitude),
but not for arbitrary thresholds. -/
theorem c3_pole_selection (eph : Ephemeris) (d : Instant) (altDeg : ℝ)
    (hsome : (buildNightPolygonDate eph d altDeg).isSome = true) :
    (buildNightPolygonDate eph d altDeg).bind poleLatOfRing =
      some (nightPole (clampDecl ((getSubsolarPoint eph d).decl))
        (Real.sin (altDeg * RAD))) ∧
    (altDeg = 0 → 0 < clampDecl ((getSubsolarPoint eph d).decl) →
      clampDecl ((getSubsolarPoint eph d).decl) < Real.pi →
      (buildNightPolygonDate eph d altDeg).bind poleLatOfRing = some (-90)) ∧
    (altDeg = 0 → -Real.pi < clampDecl ((getSubsolarPoint eph d).decl) →
      clampDecl ((getSubsolarPoint eph d).decl) < 0 →
      (buildNightPolygonDate eph d altDeg).bind poleLatOfRing = some 90) := by
  have hb : (buildNightPolygonDate eph d altDeg).bind poleLatOfRing =
      some (nightPole (clampDecl ((getSubsolarPoint eph d).decl))
        (Real.sin (altDeg * RAD))) :=
    bind_poleLat _ _ _ hsome
  refine ⟨hb, ?_, ?_⟩
  · intro h0 hpos hlt
    subst h0
    rw [hb]
    have hs : 0 < Real.sin (clampDecl ((getSubsolarPoint eph d).decl)) :=
      Real.sin_pos_of_pos_of_lt_pi hpos hlt
    unfold nightPole
    rw [sin_zero_rad, neg_zero, if_pos hs]
  · intro h0 hneg hlt
    subst h0
    rw [hb]
    have hs : Real.sin (clampDecl ((getSubsolarPoint eph d).decl)) < 0 :=
      Real.sin_neg_of_neg_of_neg_pi_lt hlt hneg
    unfold nightPole
    rw [sin_zero_rad, neg_zero, if_neg (not_lt.mpr hs.le)]

/-- Witness for the amended C3: at the concrete ephemeris and threshold -6
the builder returns a ring and the pole latitude equals `nightPole` of the
clamped declination and `sin(-6·RAD)`. -/
theorem c3_witness :
    (buildNightPolygonDate eph_cex inst_cex (-6)).isSome = true ∧
    (buildNightPolygonDate eph_cex inst_cex (-6)).bind poleLatOfRing =
      some (nightPole (clampDecl ((getSubsolarPoint eph_cex inst_cex).decl))
        (Real.sin ((-6 : ℝ) * RAD))) :=
  ⟨cex_build_isSome, (c3_pole_selection eph_cex inst_cex (-6) cex_build_isSome).1⟩

/-! ## Latitude clamping of the swept vertices -/

lemma mem_coords_bounds (ssLon declRaw altDeg : ℝ) (pr : ℝ × ℝ)
    (h : pr ∈ coordsOf ssLon declRaw altDeg) :
    -89.9 ≤ pr.2 ∧ pr.2 ≤ 89.9 := by
  unfold coordsOf at h
  rw [List.mem_filterMap] at h
  obtain ⟨lon, _, hbp⟩ := h
  unfold boundaryPoint at hbp
  by_cases hc : Rval ssLon (clampDecl declRaw) lon < |Real.sin (altDeg * RAD)|
  · rw [if_pos hc] at hbp
    exact absurd hbp (by simp)
  · rw [if_neg hc] at hbp
    injection hbp with hpr
    rw [← hpr]
    unfold boundaryLat
    exact ⟨le_max_left _ _, max_le (by norm_num) (min_le_left _ _)⟩

lemma lonSteps_cons :
    lonSteps = -180 :: (List.map Nat.succ (List.range 360)).map
      (fun (i : ℕ) => (i : ℤ) - 180) := by
  unfold lonSteps
  rw [show (361 : ℕ) = 360 + 1 from rfl, List.range_succ_eq_map, List.map_cons]
  congr 1

lemma build0_eq (ssLon declRaw : ℝ) :
    buildNightPolygon ssLon declRaw 0 = some (t0ring ssLon declRaw) := by
  have hco := coords0_eq ssLon declRaw
  rw [lonSteps_cons, List.map_cons] at hco
  refine (build_eq_of_coords _ _ _ _ _ hco).trans ?_
  unfold t0ring
  rw [lonSteps_cons, List.map_cons]

lemma t0ring_length (ssLon declRaw : ℝ) : (t0ring ssLon declRaw).length = 364 := by
  unfold t0ring
  rw [List.length_append, List.length_map, lonSteps_length]
  rfl

/-- C7: every vertex of a ring returned by `buildNightPolygon`, other than
the two pole-closing vertices — i.e. every vertex at an index below
`length - 3` together with the ring-closing repeat at index `length - 1` —
has its latitude clamped into `[-89.9, 89.9]`, and in particular is never
exactly +90 or -90. -/
theorem c7_lat_clamped (ssLon declRaw altDeg : ℝ) (ring : List (ℝ × ℝ))
    (hring : buildNightPolygon ssLon declRaw altDeg = some ring)
    (i : ℕ) (pr : ℝ × ℝ) (hpr : ring[i]? = some pr)
    (hi : i < ring.length - 3 ∨ i = ring.length - 1) :
    -89.9 ≤ pr.2 ∧ pr.2 ≤ 89.9 ∧ pr.2 ≠ 90 ∧ pr.2 ≠ -90 := by
  have hmem : pr ∈ coordsOf ssLon declRaw altDeg := by
    cases hc : coordsOf ssLon declRaw altDeg with
    | nil =>
      rw [build_none_of_coords_nil _ _ _ hc] at hring
      exact absurd hring (by simp)
    | cons c0 rest =>
      rw [build_eq_of_coords _ _ _ _ _ hc] at hring
      injection hring with hr
      rw [← hr] at hpr hi
      rcases hi with hlt | hlast
      · have hlen : ((c0 :: rest) ++
            [(180, nightPole (clampDecl declRaw) (Real.sin (altDeg * RAD))),
             (-180, nightPole (clampDecl declRaw) (Real.sin (altDeg * RAD))),
             c0]).length - 3 = (c0 :: rest).length := by
          rw [List.length_append]
          simp
        rw [hlen] at hlt
        rw [List.getElem?_append_left hlt] at hpr
        exact List.getElem?_mem hpr
      · have hlen : ((c0 :: rest) ++
            [(180, nightPole (clampDecl declRaw) (Real.sin (altDeg * RAD))),
             (-180, nightPole (clampDecl declRaw) (Real.sin (altDeg * RAD))),
             c0]).length - 1 = (c0 :: rest).length + 2 := by
          rw [List.length_append]
          simp
        rw [hlen] at hlast
        subst hlast
        rw [List.getElem?_append_right (by omega : (c0 :: rest).length ≤
          (c0 :: rest).length + 2)] at hpr
        have h2 : (c0 :: rest).length + 2 - (c0 :: rest).length = 2 := by omega
        rw [h2] at hpr
        have : pr = c0 := by
          have := hpr
          simp at this
          exact this.symm
        rw [this]
        exact List.mem_cons_self c0 rest
  obtain ⟨hlo, hhi⟩ := mem_coords_bounds ssLon declRaw altDeg pr hmem
  refine ⟨hlo, hhi, ?_, ?_⟩
  · exact ne_of_lt (lt_of_le_of_lt hhi (by norm_num))
  · exact ne_of_gt (lt_of_lt_of_le (by norm_num) hlo)

/-- Witness for C7: in the concrete threshold-0 ring at subsolar longitude
0 and raw declination `2·RAD`, the first vertex (index 0, below
`length - 3`) has latitude within `[-89.9, 89.9]` and differs from ±90. -/
theorem c7_witness :
    buildNightPolygon 0 (2 * RAD) 0 = some (t0ring 0 (2 * RAD)) ∧
    (t0ring 0 (2 * RAD))[0]? =
      some (((-180 : ℤ) : ℝ),
        boundaryLat 0 (clampDecl (2 * RAD)) (Real.sin (0 * RAD)) (-180)) ∧
    ((0 : ℕ) < (t0ring 0 (2 * RAD)).length - 3 ∨
      (0 : ℕ) = (t0ring 0 (2 * RAD)).length - 1) ∧
    (-89.9 ≤ (((-180 : ℤ) : ℝ),
        boundaryLat 0 (clampDecl (2 * RAD)) (Real.sin (0 * RAD)) (-180)).2 ∧
      (((-180 : ℤ) : ℝ),
        boundaryLat 0 (clampDecl (2 * RAD)) (Real.sin (0 * RAD)) (-180)).2 ≤ 89.9 ∧
      (((-180 : ℤ) : ℝ),
        boundaryLat 0 (clampDecl (2 * RAD)) (Real.sin (0 * RAD)) (-180)).2 ≠ 90 ∧
      (((-180 : ℤ) : ℝ),
        boundaryLat 0 (clampDecl (2 * RAD)) (Real.sin (0 * RAD)) (-180)).2 ≠ -90) := by
  have h1 := build0_eq 0 (2 * RAD)
  have h2 : (t0ring 0 (2 * RAD))[0]? =
      some (((-180 : ℤ) : ℝ),
        boundaryLat 0 (clampDecl (2 * RAD)) (Real.sin (0 * RAD)) (-180)) := by
    unfold t0ring
    rw [lonSteps_cons, List.map_cons, List.cons_append, List.getElem?_cons_zero]
  have h3 : (0 : ℕ) < (t0ring 0 (2 * RAD)).length - 3 := by
    rw [t0ring_length]
    norm_num
  exact ⟨h1, h2, Or.inl h3,
    c7_lat_clamped 0 (2 * RAD) 0 _ h1 0 _ h2 (Or.inl h3)⟩

/-! ## The subsolar readout format -/

/-- C8 (cross-check at the failing input): at subsolar point (0, 0) the
string built by `updateSubsolarInfo` is `subsolar  0°N  0°E` — the
latitude and longitude magnitudes carry **no** decimal place, because
`Math.abs` is applied to the `toFixed(1)` *string*, coercing it back to a
number and discarding the trailing `.0` when it is re-rendered.  The
claimed (and spec-mandated) one-decimal format would be
`subsolar  0.0°N  0.0°E`. -/
theorem c8_display_drops_decimal :
    updateSubsolarText 0 0 = "subsolar  0°N  0°E" ∧
    updateSubsolarText 0 0 ≠ "subsolar  0.0°N  0.0°E" ∧
    specSubsolarText 0 0 = "subsolar  0.0°N  0.0°E" := by
  have hf : |fixed1 0| = 0 := by
    unfold fixed1
    norm_num
  have h10 : ⌊(0 : ℚ) * 10⌋ = 0 := by norm_num
  have hupd : updateSubsolarText 0 0 = "subsolar  0°N  0°E" := by
    unfold updateSubsolarText jsNumToString
    rw [hf, h10, if_pos (by norm_num : (0 : ℤ) % 10 = 0),
      if_pos (le_refl (0 : ℚ)), if_pos (le_refl (0 : ℚ))]
    norm_num
    rfl
  refine ⟨hupd, ?_, ?_⟩
  · rw [hupd]
    decide
  · unfold specSubsolarText
    rw [hf, h10, if_pos (le_refl (0 : ℚ)), if_pos (le_refl (0 : ℚ))]
    norm_num
    rfl

end Geochron
